import Mathlib

/-!
Shallow embedding of the health-checker core (`checker/checker.go` of the
`health-checker` repository) together with proofs about the properties
stated in its specification.

Modelling conventions:
* Go `time.Duration` values are mathematical integers (nanoseconds);
  backoff sleeps are recorded in milliseconds, as written in the source
  (`time.Duration(attempt+1) * 500 * time.Millisecond`).
* Go `int` fields (`Concurrency`, `Retries`, `StatusCode`) are `Int`.
* The HTTP transport is an oracle `Nat → AttemptOutcome` giving the outcome
  of each zero-based attempt of one check: request construction failure
  (`http.NewRequestWithContext` returns an error), transport failure
  (`client.Do` returns an error), or a completed response with a status code.
* A Go run-time panic (nil dereference, negative `WaitGroup` add /
  negative channel capacity) is modelled by `Option.none`.
* Wall-clock time is not modelled; `Duration`/`Timestamp` fields produced by
  the executor model are `0`.  The statistics function consumes whatever
  durations its input `Result`s carry, so its claims are unaffected.
-/

namespace HealthCheckerModel

/-- `checker.Config`: per-attempt timeout (nanoseconds), worker/semaphore
bound, retry count and `User-Agent` string. -/
structure Config where
  Timeout : Int
  Concurrency : Int
  Retries : Int
  UserAgent : String
  deriving Repr, DecidableEq

/-- `checker.Result`.  `Status` is `"success"` or `"error"`; `StatusCode` is
`0` unless a response was received; `Retries` stores the value the Go code
stores there: the zero-based index of the final attempt (in-loop returns) or
`config.Retries` (fall-through return). -/
structure Result where
  URL : String
  Status : String
  StatusCode : Int
  Error : String
  Duration : Int
  Timestamp : Int
  Retries : Int
  deriving Repr, DecidableEq

/-- Outcome of one attempt, supplied by the transport oracle. -/
inductive AttemptOutcome where
  | constructErr (msg : String)
  | doErr (msg : String)
  | response (statusCode : Int)
  deriving Repr, DecidableEq

/-- Observable outcome of one `checkURL` call: the returned `Result`
(`none` models the nil-pointer dereference of `lastErr.Error()` on the
fall-through return when the loop body never ran), the number of loop
iterations (attempts) executed, and the backoff sleeps performed, in order,
in milliseconds. -/
structure CheckOutcome where
  result : Option Result
  attempts : Nat
  sleeps : List Nat
  deriving Repr, DecidableEq

/-- The retry loop of `checkURL` (`for attempt := 0; attempt <= Retries;
attempt++`).  `attempt` is the loop counter, `fuel` the number of remaining
iterations (`(cfg.Retries + 1).toNat` initially), `lastErr` the accumulated
`lastErr` variable. -/
def checkLoop (cfg : Config) (url : String) (oracle : Nat → AttemptOutcome) :
    Nat → Nat → Option String → CheckOutcome
  | _, 0, lastErr =>
      { result := lastErr.map fun e =>
          { URL := url, Status := "error", StatusCode := 0, Error := e,
            Duration := 0, Timestamp := 0, Retries := cfg.Retries },
        attempts := 0, sleeps := [] }
  | attempt, fuel + 1, _ =>
      match oracle attempt with
      | .constructErr msg =>
          let o := checkLoop cfg url oracle (attempt + 1) fuel (some msg)
          { o with attempts := o.attempts + 1 }
      | .doErr msg =>
          if (attempt : Int) = cfg.Retries then
            { result := some
                { URL := url, Status := "error", StatusCode := 0,
                  Error := msg, Duration := 0, Timestamp := 0,
                  Retries := (attempt : Int) },
              attempts := 1, sleeps := [] }
          else
            let o := checkLoop cfg url oracle (attempt + 1) fuel (some msg)
            { o with attempts := o.attempts + 1,
                     sleeps := (attempt + 1) * 500 :: o.sleeps }
      | .response c =>
          { result := some
              { URL := url,
                Status := if 400 ≤ c then "error" else "success",
                StatusCode := c, Error := "", Duration := 0, Timestamp := 0,
                Retries := (attempt : Int) },
            attempts := 1, sleeps := [] }

/-- `checkURL`: run the retry loop from attempt `0` with `lastErr = nil`.
For `cfg.Retries < 0` the loop body never executes. -/
def checkURL (cfg : Config) (url : String) (oracle : Nat → AttemptOutcome) :
    CheckOutcome :=
  checkLoop cfg url oracle 0 (cfg.Retries + 1).toNat none

/-- `strings.HasPrefix`. -/
def hasPrefixStr (s p : String) : Bool :=
  p.data.isPrefixOf s.data

/-- `normalizeURL`: prepend `https://` when neither recognized scheme prefix
is present. -/
def normalizeURL (url : String) : String :=
  if !(hasPrefixStr url "http://") && !(hasPrefixStr url "https://") then
    "https://" ++ url
  else
    url

/-- `NewHealthChecker`: a `nil` config is replaced by the documented
defaults; any non-nil config is accepted unvalidated. -/
def NewHealthChecker (config : Option Config) : Config :=
  match config with
  | none =>
      { Timeout := 10000000000, Concurrency := 5, Retries := 1,
        UserAgent := "HealthChecker/1.0" }
  | some c => c

/-- Sequential abstraction of the worker pool: each submitted URL is
normalized and checked exactly once; a worker panic (`none` from
`checkURL`) kills the run. -/
def runChecks (cfg : Config) (oracle : String → Nat → AttemptOutcome) :
    List String → Option (List Result)
  | [] => some []
  | u :: rest =>
      match (checkURL cfg (normalizeURL u) (oracle u)).result with
      | none => none
      | some r =>
          match runChecks cfg oracle rest with
          | none => none
          | some rs => some (r :: rs)

/-- What a `CheckAll` invocation produces: the deadline installed by
`context.WithTimeout` and the collected result slice (`none` = panic). -/
structure RunOutput where
  ctxDeadline : Int
  results : Option (List Result)
  deriving Repr, DecidableEq

/-- `CheckAll`.  The context deadline is `now + Timeout * len(urls)`.
With a negative `Concurrency`, `make(chan struct\x7b\x7d, n)` /
`wg.Add(n)` panic; with `Concurrency = 0` no worker is ever started, so
the result channel is closed immediately and an empty slice is returned;
otherwise every URL is normalized, dispatched and checked exactly once. -/
def CheckAll (cfg : Config) (oracle : String → Nat → AttemptOutcome)
    (now : Int) (urls : List String) : RunOutput :=
  { ctxDeadline := now + cfg.Timeout * urls.length,
    results :=
      if cfg.Concurrency < 0 then none
      else if cfg.Concurrency = 0 then some []
      else runChecks cfg oracle urls }

/-- The values printed by `PrintStats` (`none` when the early return for an
empty slice fires).  `avgTime` uses Go's truncating `int64` division;
`successRate` is `float64(successCount)/float64(len(results))*100`, modelled
exactly in `ℚ`. -/
structure Stats where
  total : Nat
  successCount : Nat
  errorCount : Nat
  totalTime : Int
  avgTime : Int
  successRate : ℚ
  deriving Repr, DecidableEq

/-- `PrintStats`: fold over the results accumulating total duration and
success/error counts (`Status == "success"` decides success). -/
def PrintStats (results : List Result) : Option Stats :=
  if results.length = 0 then none
  else
    let totalTime : Int := (results.map Result.Duration).sum
    let successCount := results.countP fun r => r.Status == "success"
    let errorCount := results.countP fun r => !(r.Status == "success")
    some { total := results.length, successCount := successCount,
           errorCount := errorCount, totalTime := totalTime,
           avgTime := totalTime.tdiv results.length,
           successRate := (successCount : ℚ) / (results.length : ℚ) * 100 }

/-! ### Operational model of the worker pool

`CheckAll` spawns `Concurrency` goroutines running `worker`; each worker
repeatedly receives a URL from `urlChan`, acquires a slot in the buffered
`semaphore` channel (capacity `Concurrency`), runs `checkURL`, sends the
`Result`, and releases its slot.  The interleaving of workers is modelled
as a small-step transition relation on a scheduler state. -/

/-- Position of one worker goroutine in its loop body. -/
inductive WStage where
  | ready
  | hasUrl (u : String)
  | inCheck (u : String)
  | holding (r : Result)
  | stopped
  deriving Repr, DecidableEq

/-- Does this worker currently occupy a semaphore slot? -/
def WStage.holdsSlot : WStage → Bool
  | .inCheck _ => true
  | .holding _ => true
  | _ => false

/-- Is this worker currently executing `checkURL`? -/
def WStage.isInCheck : WStage → Bool
  | .inCheck _ => true
  | _ => false

/-- Scheduler state: the not-yet-received URLs of `urlChan`, the stage of
each worker, the number of occupied semaphore slots, and the collected
results. -/
structure SchedState where
  pending : List String
  workers : List WStage
  sem : Nat
  results : List Result
  deriving Repr, DecidableEq

/-- Number of simultaneously executing checks. -/
def inCheckCount (s : SchedState) : Nat :=
  s.workers.countP WStage.isInCheck

/-- One interleaving step of the pool.  `recv`/`stop` model
`for url := range urls`; `acquire` models `semaphore <- struct\x7b\x7d`
(it blocks unless a slot is free); `finish` completes `checkURL`;
`emit` models `results <- result` followed by `<-semaphore`. -/
inductive Step (cfg : Config) (oracle : String → Nat → AttemptOutcome) :
    SchedState → SchedState → Prop where
  | recv (s : SchedState) (i : Nat) (u : String) (rest : List String)
      (hw : s.workers[i]? = some .ready) (hp : s.pending = u :: rest) :
      Step cfg oracle s
        { s with pending := rest, workers := s.workers.set i (.hasUrl u) }
  | stop (s : SchedState) (i : Nat)
      (hw : s.workers[i]? = some .ready) (hp : s.pending = []) :
      Step cfg oracle s { s with workers := s.workers.set i .stopped }
  | acquire (s : SchedState) (i : Nat) (u : String)
      (hw : s.workers[i]? = some (.hasUrl u))
      (hs : s.sem < cfg.Concurrency.toNat) :
      Step cfg oracle s
        { s with workers := s.workers.set i (.inCheck u), sem := s.sem + 1 }
  | finish (s : SchedState) (i : Nat) (u : String) (r : Result)
      (hw : s.workers[i]? = some (.inCheck u))
      (hr : (checkURL cfg u (oracle u)).result = some r) :
      Step cfg oracle s { s with workers := s.workers.set i (.holding r) }
  | emit (s : SchedState) (i : Nat) (r : Result)
      (hw : s.workers[i]? = some (.holding r)) :
      Step cfg oracle s
        { s with workers := s.workers.set i .ready, sem := s.sem - 1,
                 results := s.results ++ [r] }

/-- Initial scheduler state of one `CheckAll` run: all URLs normalized and
queued, `Concurrency` idle workers, no slot taken, no result. -/
def initState (cfg : Config) (urls : List String) : SchedState :=
  { pending := urls.map normalizeURL,
    workers := List.replicate cfg.Concurrency.toNat .ready,
    sem := 0, results := [] }

/-- Semaphore invariant: slot holders equal the semaphore counter, which is
bounded by the capacity, and the pool size is fixed. -/
def SemInv (cfg : Config) (s : SchedState) : Prop :=
  s.workers.countP WStage.holdsSlot = s.sem ∧
  s.sem ≤ cfg.Concurrency.toNat ∧
  s.workers.length = cfg.Concurrency.toNat

/-! ### Lemmas about the retry loop -/

/-- Exhausted loop: the fall-through return. -/
theorem checkLoop_fuel_zero (cfg : Config) (url : String)
    (oracle : Nat → AttemptOutcome) (attempt : Nat) (lastErr : Option String) :
    checkLoop cfg url oracle attempt 0 lastErr =
      { result := lastErr.map fun e =>
          { URL := url, Status := "error", StatusCode := 0, Error := e,
            Duration := 0, Timestamp := 0, Retries := cfg.Retries },
        attempts := 0, sleeps := [] } := by
  rfl

/-- Request construction failure: record the error and retry immediately
(no backoff sleep). -/
theorem checkLoop_constructErr (cfg : Config) (url : String)
    (oracle : Nat → AttemptOutcome) (attempt fuel : Nat)
    (lastErr : Option String) (msg : String)
    (h : oracle attempt = .constructErr msg) :
    checkLoop cfg url oracle attempt (fuel + 1) lastErr =
      { result := (checkLoop cfg url oracle (attempt + 1) fuel (some msg)).result,
        attempts :=
          (checkLoop cfg url oracle (attempt + 1) fuel (some msg)).attempts + 1,
        sleeps := (checkLoop cfg url oracle (attempt + 1) fuel (some msg)).sleeps } := by
  simp [checkLoop, h]

/-- Transport failure on the last allowed attempt: return the error result
immediately, with the attempt index in the `Retries` field. -/
theorem checkLoop_doErr_last (cfg : Config) (url : String)
    (oracle : Nat → AttemptOutcome) (attempt fuel : Nat)
    (lastErr : Option String) (msg : String)
    (h : oracle attempt = .doErr msg) (hat : (attempt : Int) = cfg.Retries) :
    checkLoop cfg url oracle attempt (fuel + 1) lastErr =
      { result := some
          { URL := url, Status := "error", StatusCode := 0, Error := msg,
            Duration := 0, Timestamp := 0, Retries := (attempt : Int) },
        attempts := 1, sleeps := [] } := by
  simp [checkLoop, h, hat]

/-- Transport failure on an earlier attempt: sleep `(attempt+1) * 500` ms
(linear backoff) and retry. -/
theorem checkLoop_doErr_retry (cfg : Config) (url : String)
    (oracle : Nat → AttemptOutcome) (attempt fuel : Nat)
    (lastErr : Option String) (msg : String)
    (h : oracle attempt = .doErr msg) (hat : (attempt : Int) ≠ cfg.Retries) :
    checkLoop cfg url oracle attempt (fuel + 1) lastErr =
      { result := (checkLoop cfg url oracle (attempt + 1) fuel (some msg)).result,
        attempts :=
          (checkLoop cfg url oracle (attempt + 1) fuel (some msg)).attempts + 1,
        sleeps := (attempt + 1) * 500 ::
          (checkLoop cfg url oracle (attempt + 1) fuel (some msg)).sleeps } := by
  simp [checkLoop, h, hat]

/-- Completed response: classify from the status code, return at once. -/
theorem checkLoop_response (cfg : Config) (url : String)
    (oracle : Nat → AttemptOutcome) (attempt fuel : Nat)
    (lastErr : Option String) (c : Int)
    (h : oracle attempt = .response c) :
    checkLoop cfg url oracle attempt (fuel + 1) lastErr =
      { result := some
          { URL := url, Status := if 400 ≤ c then "error" else "success",
            StatusCode := c, Error := "", Duration := 0, Timestamp := 0,
            Retries := (attempt : Int) },
        attempts := 1, sleeps := [] } := by
  simp [checkLoop, h]

/-- Whenever the loop still has an iteration to run, or an error has been
accumulated already, `checkURL`'s return value is a real `Result`. -/
theorem checkLoop_result_isSome (cfg : Config) (url : String)
    (oracle : Nat → AttemptOutcome) :
    ∀ (fuel attempt : Nat) (lastErr : Option String),
      lastErr.isSome = true ∨ 1 ≤ fuel →
      ((checkLoop cfg url oracle attempt fuel lastErr).result).isSome = true
  | 0, attempt, lastErr, h => by
      cases lastErr with
      | none => simp at h
      | some e => simp [checkLoop_fuel_zero]
  | fuel + 1, attempt, lastErr, _ => by
      cases ho : oracle attempt with
      | constructErr msg =>
          rw [checkLoop_constructErr cfg url oracle attempt fuel lastErr msg ho]
          exact checkLoop_result_isSome cfg url oracle fuel (attempt + 1)
            (some msg) (Or.inl rfl)
      | doErr msg =>
          by_cases hat : (attempt : Int) = cfg.Retries
          · rw [checkLoop_doErr_last cfg url oracle attempt fuel lastErr msg ho hat]
            rfl
          · rw [checkLoop_doErr_retry cfg url oracle attempt fuel lastErr msg ho hat]
            exact checkLoop_result_isSome cfg url oracle fuel (attempt + 1)
              (some msg) (Or.inl rfl)
      | response c =>
          rw [checkLoop_response cfg url oracle attempt fuel lastErr c ho]
          rfl

/-- Every `Result` produced by the loop carries the URL it was called
with. -/
theorem checkLoop_result_url (cfg : Config) (url : String)
    (oracle : Nat → AttemptOutcome) :
    ∀ (fuel attempt : Nat) (lastErr : Option String) (r : Result),
      (checkLoop cfg url oracle attempt fuel lastErr).result = some r →
      r.URL = url
  | 0, attempt, lastErr, r, h => by
      rw [checkLoop_fuel_zero] at h
      cases lastErr with
      | none => simp at h
      | some e =>
          simp only [Option.map_some] at h
          cases h
          rfl
  | fuel + 1, attempt, lastErr, r, h => by
      cases ho : oracle attempt with
      | constructErr msg =>
          rw [checkLoop_constructErr cfg url oracle attempt fuel lastErr msg ho] at h
          exact checkLoop_result_url cfg url oracle fuel (attempt + 1) (some msg) r h
      | doErr msg =>
          by_cases hat : (attempt : Int) = cfg.Retries
          · rw [checkLoop_doErr_last cfg url oracle attempt fuel lastErr msg ho hat] at h
            cases h
            rfl
          · rw [checkLoop_doErr_retry cfg url oracle attempt fuel lastErr msg ho hat] at h
            exact checkLoop_result_url cfg url oracle fuel (attempt + 1) (some msg) r h
      | response c =>
          rw [checkLoop_response cfg url oracle attempt fuel lastErr c ho] at h
          cases h
          rfl

/-- A run of the loop against a transport that fails every issued request
returns the error result of the final attempt and uses every iteration. -/
theorem checkLoop_all_doErr (cfg : Config) (url msg : String)
    (oracle : Nat → AttemptOutcome) (hor : ∀ n, oracle n = .doErr msg) :
    ∀ (fuel attempt : Nat) (lastErr : Option String),
      1 ≤ fuel → (attempt : Int) + fuel = cfg.Retries + 1 →
      (checkLoop cfg url oracle attempt fuel lastErr).result =
        some { URL := url, Status := "error", StatusCode := 0, Error := msg,
               Duration := 0, Timestamp := 0, Retries := cfg.Retries } ∧
      (checkLoop cfg url oracle attempt fuel lastErr).attempts = fuel
  | 0, attempt, lastErr, hf, _ => absurd hf (by omega)
  | 1, attempt, lastErr, _, hsum => by
      have hat : (attempt : Int) = cfg.Retries := by push_cast at hsum; omega
      rw [checkLoop_doErr_last cfg url oracle attempt 0 lastErr msg (hor attempt) hat]
      exact ⟨by rw [hat], rfl⟩
  | fuel + 2, attempt, lastErr, _, hsum => by
      have hat : (attempt : Int) ≠ cfg.Retries := by push_cast at hsum; omega
      rw [checkLoop_doErr_retry cfg url oracle attempt (fuel + 1) lastErr msg
        (hor attempt) hat]
      have ih := checkLoop_all_doErr cfg url msg oracle hor (fuel + 1)
        (attempt + 1) (some msg) (by omega) (by push_cast at hsum ⊢; omega)
      exact ⟨ih.1, by rw [ih.2]⟩

/-- A run of the loop against a transport where request construction always
fails never sleeps, uses every iteration, and falls through to the
accumulated-error return. -/
theorem checkLoop_all_constructErr (cfg : Config) (url msg : String)
    (oracle : Nat → AttemptOutcome) (hor : ∀ n, oracle n = .constructErr msg) :
    ∀ (fuel attempt : Nat) (lastErr : Option String), 1 ≤ fuel →
      checkLoop cfg url oracle attempt fuel lastErr =
        { result := some
            { URL := url, Status := "error", StatusCode := 0, Error := msg,
              Duration := 0, Timestamp := 0, Retries := cfg.Retries },
          attempts := fuel, sleeps := [] }
  | 0, attempt, lastErr, hf => absurd hf (by omega)
  | 1, attempt, lastErr, _ => by
      rw [checkLoop_constructErr cfg url oracle attempt 0 lastErr msg (hor attempt),
        checkLoop_fuel_zero]
      rfl
  | fuel + 2, attempt, lastErr, _ => by
      rw [checkLoop_constructErr cfg url oracle attempt (fuel + 1) lastErr msg
        (hor attempt),
        checkLoop_all_constructErr cfg url msg oracle hor (fuel + 1) (attempt + 1)
          (some msg) (by omega)]

/-! ### Counting helpers for the scheduler invariant -/

/-- Updating one position of a list changes `countP` by the difference of
the predicate on the old and new values. -/
theorem countP_set_balance {α : Type} (p : α → Bool) :
    ∀ (l : List α) (i : Nat) (a b : α), l[i]? = some a →
      (l.set i b).countP p + (if p a then 1 else 0) =
        l.countP p + (if p b then 1 else 0)
  | [], i, a, b, h => by simp at h
  | x :: t, 0, a, b, h => by
      simp only [List.getElem?_cons_zero, Option.some.injEq] at h
      subst h
      simp [List.countP_cons]
      omega
  | x :: t, i + 1, a, b, h => by
      simp only [List.getElem?_cons_succ] at h
      have ih := countP_set_balance p t i a b h
      simp only [List.set_cons_succ, List.countP_cons]
      omega

/-- A position satisfying the predicate witnesses a positive count. -/
theorem countP_pos_of_getElem {α : Type} (p : α → Bool) (l : List α) (i : Nat)
    (a : α) (h : l[i]? = some a) (hp : p a = true) : 1 ≤ l.countP p :=
  List.countP_pos_iff.mpr ⟨a, List.getElem?_mem h, hp⟩

/-- With a non-negative retry count every submitted URL yields exactly one
`Result`, whose `URL` field is the normalized input. -/
theorem runChecks_spec (cfg : Config) (oracle : String → Nat → AttemptOutcome)
    (hr : 0 ≤ cfg.Retries) :
    ∀ urls : List String, ∃ rs : List Result,
      runChecks cfg oracle urls = some rs ∧ rs.length = urls.length ∧
      rs.map Result.URL = urls.map normalizeURL
  | [] => ⟨[], rfl, rfl, rfl⟩
  | u :: rest => by
      have hs : ((checkURL cfg (normalizeURL u) (oracle u)).result).isSome = true :=
        checkLoop_result_isSome cfg (normalizeURL u) (oracle u)
          (cfg.Retries + 1).toNat 0 none (Or.inr (by omega))
      obtain ⟨r, hr1⟩ := Option.isSome_iff_exists.mp hs
      have hurl : r.URL = normalizeURL u :=
        checkLoop_result_url cfg (normalizeURL u) (oracle u)
          (cfg.Retries + 1).toNat 0 none r hr1
      obtain ⟨rs, h1, h2, h3⟩ := runChecks_spec cfg oracle hr rest
      exact ⟨r :: rs, by simp [runChecks, hr1, h1], by simp [h2],
        by simp [h3, hurl]⟩

/-! ### Scheduler invariant -/

/-- Every step of the pool preserves the semaphore invariant. -/
theorem SemInv_step (cfg : Config) (oracle : String → Nat → AttemptOutcome)
    (s s' : SchedState) (hstep : Step cfg oracle s s') (hinv : SemInv cfg s) :
    SemInv cfg s' := by
  obtain ⟨hcount, hle, hlen⟩ := hinv
  cases hstep with
  | recv i u rest hw hp =>
      have hb := countP_set_balance WStage.holdsSlot s.workers i .ready (.hasUrl u) hw
      simp [WStage.holdsSlot] at hb
      refine ⟨?_, hle, ?_⟩
      · show (s.workers.set i (.hasUrl u)).countP WStage.holdsSlot = s.sem
        omega
      · show (s.workers.set i (.hasUrl u)).length = _
        simp [List.length_set, hlen]
  | stop i hw hp =>
      have hb := countP_set_balance WStage.holdsSlot s.workers i .ready .stopped hw
      simp [WStage.holdsSlot] at hb
      refine ⟨?_, hle, ?_⟩
      · show (s.workers.set i .stopped).countP WStage.holdsSlot = s.sem
        omega
      · show (s.workers.set i .stopped).length = _
        simp [List.length_set, hlen]
  | acquire i u hw hs =>
      have hb := countP_set_balance WStage.holdsSlot s.workers i (.hasUrl u) (.inCheck u) hw
      simp [WStage.holdsSlot] at hb
      refine ⟨?_, ?_, ?_⟩
      · show (s.workers.set i (.inCheck u)).countP WStage.holdsSlot = s.sem + 1
        omega
      · show s.sem + 1 ≤ cfg.Concurrency.toNat
        omega
      · show (s.workers.set i (.inCheck u)).length = _
        simp [List.length_set, hlen]
  | finish i u r hw hrr =>
      have hb := countP_set_balance WStage.holdsSlot s.workers i (.inCheck u) (.holding r) hw
      simp [WStage.holdsSlot] at hb
      refine ⟨?_, hle, ?_⟩
      · show (s.workers.set i (.holding r)).countP WStage.holdsSlot = s.sem
        omega
      · show (s.workers.set i (.holding r)).length = _
        simp [List.length_set, hlen]
  | emit i r hw =>
      have hb := countP_set_balance WStage.holdsSlot s.workers i (.holding r) .ready hw
      have hpos : 1 ≤ s.workers.countP WStage.holdsSlot :=
        countP_pos_of_getElem WStage.holdsSlot s.workers i (.holding r) hw rfl
      simp [WStage.holdsSlot] at hb
      refine ⟨?_, ?_, ?_⟩
      · show (s.workers.set i .ready).countP WStage.holdsSlot = s.sem - 1
        omega
      · show s.sem - 1 ≤ cfg.Concurrency.toNat
        omega
      · show (s.workers.set i .ready).length = _
        simp [List.length_set, hlen]

/-- The initial state satisfies the semaphore invariant. -/
theorem SemInv_init (cfg : Config) (urls : List String) :
    SemInv cfg (initState cfg urls) := by
  refine ⟨?_, by simp [initState], by simp [initState]⟩
  simp only [initState]
  exact List.countP_eq_zero.mpr fun a ha => by
    rw [List.eq_of_mem_replicate ha]
    simp [WStage.holdsSlot]

/-- The semaphore invariant holds in every reachable state. -/
theorem SemInv_reachable (cfg : Config) (oracle : String → Nat → AttemptOutcome)
    (urls : List String) (s : SchedState)
    (h : Relation.ReflTransGen (Step cfg oracle) (initState cfg urls) s) :
    SemInv cfg s := by
  induction h with
  | refl => exact SemInv_init cfg urls
  | tail _ hstep ih => exact SemInv_step cfg oracle _ _ hstep ih

/-! ### Claim theorems -/

/-- A string extended on the right keeps its own prefix. -/
theorem hasPrefixStr_append (p r : String) : hasPrefixStr (p ++ r) p = true := by
  simp [hasPrefixStr, String.data_append, List.isPrefixOf_iff_prefix]

/-- C6: `normalizeURL` is a pure total function: when `raw` begins with
neither `http://` nor `https://` it returns `"https://" ++ raw`, otherwise
`raw` unchanged; consequently it is idempotent. -/
theorem normalizeURL_cases_and_idempotent :
    (∀ raw : String, normalizeURL raw =
      if hasPrefixStr raw "http://" || hasPrefixStr raw "https://" then raw
      else "https://" ++ raw) ∧
    (∀ x : String, normalizeURL (normalizeURL x) = normalizeURL x) := by
  constructor
  · intro raw
    cases h1 : hasPrefixStr raw "http://" <;>
      cases h2 : hasPrefixStr raw "https://" <;>
        simp [normalizeURL, h1, h2]
  · intro x
    cases h1 : hasPrefixStr x "http://" <;>
      cases h2 : hasPrefixStr x "https://" <;>
        simp [normalizeURL, h1, h2, hasPrefixStr_append]

/-- C7: the single overall deadline installed by `CheckAll` via
`context.WithTimeout` is `now + perAttemptTimeout * len(endpoints)`. -/
theorem checkAll_overall_deadline (cfg : Config)
    (oracle : String → Nat → AttemptOutcome) (now : Int) (urls : List String) :
    (CheckAll cfg oracle now urls).ctxDeadline =
      now + cfg.Timeout * urls.length := rfl

/-- C10: the fall-through return of `checkURL` dereferences a valid error
exactly when `config.Retries ≥ 0`: under that precondition the returned
`Result` always exists (the fall-through is reached only with a non-nil
`lastErr`), and with `config.Retries < 0` the loop body never runs and the
nil `lastErr` is dereferenced (modelled as `none`). -/
theorem checkURL_fallback_deref_safety (cfg : Config) (url : String)
    (oracle : Nat → AttemptOutcome) :
    ((checkURL cfg url oracle).result.isSome = true) ↔ 0 ≤ cfg.Retries := by
  constructor
  · intro h
    by_contra hneg
    have h0 : (cfg.Retries + 1).toNat = 0 := by omega
    rw [checkURL, h0, checkLoop_fuel_zero] at h
    simp at h
  · intro h
    exact checkLoop_result_isSome cfg url oracle (cfg.Retries + 1).toNat 0 none
      (Or.inr (by omega))

/-- C9: over the two-element result set with a 100 ms success and a 200 ms
error, the statistics computation yields one success, one error, a
300 ms total, a 150 ms average and a 50 % success rate (durations in
nanoseconds). -/
theorem printStats_known_result_set :
    PrintStats
      [ { URL := "https://a", Status := "success", StatusCode := 200,
          Error := "", Duration := 100000000, Timestamp := 0, Retries := 0 },
        { URL := "https://b", Status := "error", StatusCode := 500,
          Error := "", Duration := 200000000, Timestamp := 0, Retries := 0 } ] =
      some { total := 2, successCount := 1, errorCount := 1,
             totalTime := 300000000, avgTime := 150000000,
             successRate := 50 } := by
  have hne : ¬ ("error" = "success") := by decide
  have htdiv : Int.tdiv 300000000 2 = 150000000 := by decide
  norm_num [PrintStats, List.countP_cons, hne, htdiv]

/-- C1: for every positive `maxConcurrency`, non-negative retry count and
non-empty endpoint list, `CheckAll` returns exactly one `Result` per
submitted endpoint: `len(endpoints)` results whose `URL` fields are the
normalized forms of the inputs, in order. -/
theorem checkAll_one_result_per_endpoint (cfg : Config)
    (oracle : String → Nat → AttemptOutcome) (now : Int) (urls : List String)
    (hc : 0 < cfg.Concurrency) (hr : 0 ≤ cfg.Retries) (_hne : urls ≠ []) :
    ∃ rs : List Result, (CheckAll cfg oracle now urls).results = some rs ∧
      rs.length = urls.length ∧ rs.map Result.URL = urls.map normalizeURL := by
  obtain ⟨rs, h1, h2, h3⟩ := runChecks_spec cfg oracle hr urls
  refine ⟨rs, ?_, h2, h3⟩
  show (if cfg.Concurrency < 0 then none
        else if cfg.Concurrency = 0 then some []
        else runChecks cfg oracle urls) = some rs
  rw [if_neg (by omega), if_neg (by omega)]
  exact h1

/-- Witness for C1 at a concrete input. -/
theorem checkAll_one_result_per_endpoint_witness :
    ∃ rs : List Result,
      (CheckAll { Timeout := 10000000000, Concurrency := 5, Retries := 1,
                  UserAgent := "HealthChecker/1.0" }
        (fun _ _ => .response 200) 0 ["example.com"]).results = some rs ∧
      rs.length = (["example.com"] : List String).length ∧
      rs.map Result.URL = (["example.com"] : List String).map normalizeURL :=
  checkAll_one_result_per_endpoint _ _ 0 _ (by decide) (by decide) (by decide)

/-- C2 counterexample: with `maxConcurrency = 0` and a non-empty endpoint
list, `CheckAll` silently returns a normal empty result collection: no
configuration error is reported (the API has no error channel) and no check
runs. -/
theorem checkAll_conc_zero_counterexample :
    (CheckAll { Timeout := 10000000000, Concurrency := 0, Retries := 1,
                UserAgent := "HealthChecker/1.0" }
      (fun _ _ => .response 200) 0 ["example.com"]).results = some [] := rfl

/-- C2 (amended): the checker performs no configuration validation: a
non-nil config is accepted as-is by `NewHealthChecker`;
`maxConcurrency = 0` (even with pending endpoints) and an empty endpoint
list both make `CheckAll` silently return an empty normal result collection
without hanging; a negative `maxConcurrency` panics (negative channel
capacity / negative `WaitGroup` add) instead of reporting an error. -/
theorem checkAll_invalid_config_behavior :
    (∀ c : Config, NewHealthChecker (some c) = c) ∧
    (∀ (cfg : Config) (oracle : String → Nat → AttemptOutcome) (now : Int)
        (urls : List String), cfg.Concurrency = 0 →
        (CheckAll cfg oracle now urls).results = some []) ∧
    (∀ (cfg : Config) (oracle : String → Nat → AttemptOutcome) (now : Int)
        (urls : List String), cfg.Concurrency < 0 →
        (CheckAll cfg oracle now urls).results = none) ∧
    (∀ (cfg : Config) (oracle : String → Nat → AttemptOutcome) (now : Int),
        0 ≤ cfg.Concurrency →
        (CheckAll cfg oracle now []).results = some []) := by
  refine ⟨fun c => rfl, ?_, ?_, ?_⟩
  · intro cfg oracle now urls h
    show (if cfg.Concurrency < 0 then none
          else if cfg.Concurrency = 0 then some []
          else runChecks cfg oracle urls) = some []
    rw [if_neg (by omega), if_pos h]
  · intro cfg oracle now urls h
    show (if cfg.Concurrency < 0 then none
          else if cfg.Concurrency = 0 then some []
          else runChecks cfg oracle urls) = none
    rw [if_pos h]
  · intro cfg oracle now h
    show (if cfg.Concurrency < 0 then none
          else if cfg.Concurrency = 0 then some []
          else runChecks cfg oracle []) = some []
    rw [if_neg (by omega)]
    by_cases h0 : cfg.Concurrency = 0
    · rw [if_pos h0]
    · rw [if_neg h0]
      rfl

/-- Witness for the amended C2 at concrete inputs. -/
theorem checkAll_invalid_config_behavior_witness :
    (CheckAll { Timeout := 10000000000, Concurrency := 0, Retries := 1,
                UserAgent := "ua" } (fun _ _ => .response 200) 0 ["a"]).results
      = some [] ∧
    (CheckAll { Timeout := 10000000000, Concurrency := -3, Retries := 1,
                UserAgent := "ua" } (fun _ _ => .response 200) 0 ["a"]).results
      = none ∧
    (CheckAll { Timeout := 10000000000, Concurrency := 5, Retries := 1,
                UserAgent := "ua" } (fun _ _ => .response 200) 0 []).results
      = some [] :=
  ⟨checkAll_invalid_config_behavior.2.1 _ _ 0 _ rfl,
   checkAll_invalid_config_behavior.2.2.1 _ _ 0 _ (by decide),
   checkAll_invalid_config_behavior.2.2.2 _ _ 0 (by decide)⟩

/-- C3 counterexample: with `maxRetries = 1` and a transport failing every
attempt, two attempts (`maxRetries + 1`) are performed, but the
attempts-used field of the `Result` (Go field `Retries`) is `1`, not the
claimed attempt count `2`. -/
theorem retries_field_counterexample :
    (checkURL { Timeout := 10000000000, Concurrency := 5, Retries := 1,
                UserAgent := "HealthChecker/1.0" } "https://a"
        (fun _ => .doErr "connection refused")).attempts = 2 ∧
    ((checkURL { Timeout := 10000000000, Concurrency := 5, Retries := 1,
                 UserAgent := "HealthChecker/1.0" } "https://a"
        (fun _ => .doErr "connection refused")).result.map Result.Retries)
      = some 1 := by
  decide

/-- C3 (amended): the `Retries` field records the zero-based index of the
final attempt, one less than the number of attempts performed: an endpoint
whose transport always fails performs `maxRetries + 1` attempts and yields
a Failure with `Retries = maxRetries`; an endpoint failing once then
succeeding (with `maxRetries ≥ 1`) performs `2` attempts and yields a
Success with `Retries = 1`. -/
theorem retries_field_final_attempt_index :
    (∀ (cfg : Config) (url msg : String) (oracle : Nat → AttemptOutcome),
        0 ≤ cfg.Retries → (∀ n, oracle n = .doErr msg) →
        (checkURL cfg url oracle).attempts = cfg.Retries.toNat + 1 ∧
        (checkURL cfg url oracle).result =
          some { URL := url, Status := "error", StatusCode := 0, Error := msg,
                 Duration := 0, Timestamp := 0, Retries := cfg.Retries }) ∧
    (∀ (cfg : Config) (url msg : String) (c : Int), 1 ≤ cfg.Retries → c < 400 →
        (checkURL cfg url
            (fun n => if n = 0 then .doErr msg else .response c)).attempts = 2 ∧
        (checkURL cfg url
            (fun n => if n = 0 then .doErr msg else .response c)).result =
          some { URL := url, Status := "success", StatusCode := c, Error := "",
                 Duration := 0, Timestamp := 0, Retries := 1 }) := by
  constructor
  · intro cfg url msg oracle hr hor
    have h := checkLoop_all_doErr cfg url msg oracle hor
      (cfg.Retries + 1).toNat 0 none (by omega) (by omega)
    simp only [checkURL]
    exact ⟨by rw [h.2]; omega, h.1⟩
  · intro cfg url msg c hr hc
    obtain ⟨k, hk⟩ : ∃ k, (cfg.Retries + 1).toNat = k + 1 + 1 :=
      ⟨(cfg.Retries - 1).toNat, by omega⟩
    have h0 : (fun n => if n = 0 then AttemptOutcome.doErr msg
        else AttemptOutcome.response c) 0 = .doErr msg := rfl
    have h1 : (fun n => if n = 0 then AttemptOutcome.doErr msg
        else AttemptOutcome.response c) 1 = .response c := rfl
    have hne0 : ((0 : Nat) : Int) ≠ cfg.Retries := by omega
    simp only [checkURL, hk]
    rw [checkLoop_doErr_retry _ _ _ 0 (k + 1) none msg h0 hne0,
      checkLoop_response _ _ _ 1 k (some msg) c h1]
    refine ⟨rfl, ?_⟩
    have h400 : ¬ (400 ≤ c) := by omega
    simp [h400]

/-- C4: a completed HTTP response is classified from the first completed
response with no further retry: status `< 400` yields `"success"` carrying
the code, status `≥ 400` yields `"error"` carrying the code; in particular
a 404 response on the first attempt yields exactly one attempt and
`Failure` with status code 404. -/
theorem response_classification_no_retry :
    (∀ (cfg : Config) (url : String) (oracle : Nat → AttemptOutcome)
        (attempt fuel : Nat) (lastErr : Option String) (c : Int),
        oracle attempt = .response c →
        checkLoop cfg url oracle attempt (fuel + 1) lastErr =
          { result := some
              { URL := url, Status := if 400 ≤ c then "error" else "success",
                StatusCode := c, Error := "", Duration := 0, Timestamp := 0,
                Retries := (attempt : Int) },
            attempts := 1, sleeps := [] }) ∧
    (∀ (cfg : Config) (url : String) (oracle : Nat → AttemptOutcome),
        0 ≤ cfg.Retries → oracle 0 = .response 404 →
        checkURL cfg url oracle =
          { result := some
              { URL := url, Status := "error", StatusCode := 404, Error := "",
                Duration := 0, Timestamp := 0, Retries := 0 },
            attempts := 1, sleeps := [] }) := by
  constructor
  · exact fun cfg url oracle attempt fuel lastErr c h =>
      checkLoop_response cfg url oracle attempt fuel lastErr c h
  · intro cfg url oracle hr h
    obtain ⟨k, hk⟩ : ∃ k, (cfg.Retries + 1).toNat = k + 1 :=
      ⟨cfg.Retries.toNat, by omega⟩
    rw [checkURL, hk, checkLoop_response cfg url oracle 0 k none 404 h]
    simp

/-- Witness for C4 at concrete inputs. -/
theorem response_classification_no_retry_witness :
    checkLoop { Timeout := 10000000000, Concurrency := 5, Retries := 1,
                UserAgent := "ua" } "https://x" (fun _ => .response 200) 0 1 none
        = { result := some
              { URL := "https://x", Status := "success", StatusCode := 200,
                Error := "", Duration := 0, Timestamp := 0, Retries := 0 },
            attempts := 1, sleeps := [] } ∧
    checkURL { Timeout := 10000000000, Concurrency := 5, Retries := 1,
               UserAgent := "ua" } "https://x" (fun _ => .response 404)
        = { result := some
              { URL := "https://x", Status := "error", StatusCode := 404,
                Error := "", Duration := 0, Timestamp := 0, Retries := 0 },
            attempts := 1, sleeps := [] } :=
  ⟨response_classification_no_retry.1 _ "https://x" (fun _ => .response 200)
      0 0 none 200 rfl,
   response_classification_no_retry.2 _ "https://x" (fun _ => .response 404)
      (by decide) rfl⟩

/-- C5 counterexample: with `maxRetries = 1`, a request-construction
failure (a transport-level failure per the claim) on the first attempt is
followed by a retry, yet no backoff sleep is performed, contradicting the
claimed `(attemptIndex+1) * 500` ms sleep before every such retry. -/
theorem construct_failure_no_backoff_counterexample :
    (checkURL { Timeout := 10000000000, Concurrency := 5, Retries := 1,
                UserAgent := "HealthChecker/1.0" } "https://c"
        (fun n => if n = 0 then .constructErr "missing host"
                  else .response 200)).attempts = 2 ∧
    (checkURL { Timeout := 10000000000, Concurrency := 5, Retries := 1,
                UserAgent := "HealthChecker/1.0" } "https://c"
        (fun n => if n = 0 then .constructErr "missing host"
                  else .response 200)).sleeps = [] := by
  decide

/-- C5 (amended): a transport failure of an issued request (`client.Do`
error) returns `Failure{errorMessage}` immediately on the last allowed
attempt, and on an earlier attempt sleeps `(attemptIndex+1) * 500` ms
(linear backoff) before the strictly sequential retry; a
request-construction failure instead retries immediately with no backoff,
and when construction fails on every attempt the loop falls through to
`Failure{errorMessage: lastErr}` having slept never. -/
theorem transport_failure_retry_policy :
    (∀ (cfg : Config) (url : String) (oracle : Nat → AttemptOutcome)
        (attempt fuel : Nat) (lastErr : Option String) (msg : String),
        oracle attempt = .doErr msg → (attempt : Int) = cfg.Retries →
        checkLoop cfg url oracle attempt (fuel + 1) lastErr =
          { result := some
              { URL := url, Status := "error", StatusCode := 0, Error := msg,
                Duration := 0, Timestamp := 0, Retries := (attempt : Int) },
            attempts := 1, sleeps := [] }) ∧
    (∀ (cfg : Config) (url : String) (oracle : Nat → AttemptOutcome)
        (attempt fuel : Nat) (lastErr : Option String) (msg : String),
        oracle attempt = .doErr msg → (attempt : Int) ≠ cfg.Retries →
        checkLoop cfg url oracle attempt (fuel + 1) lastErr =
          { result :=
              (checkLoop cfg url oracle (attempt + 1) fuel (some msg)).result,
            attempts :=
              (checkLoop cfg url oracle (attempt + 1) fuel (some msg)).attempts + 1,
            sleeps := (attempt + 1) * 500 ::
              (checkLoop cfg url oracle (attempt + 1) fuel (some msg)).sleeps }) ∧
    (∀ (cfg : Config) (url : String) (oracle : Nat → AttemptOutcome)
        (attempt fuel : Nat) (lastErr : Option String) (msg : String),
        oracle attempt = .constructErr msg →
        checkLoop cfg url oracle attempt (fuel + 1) lastErr =
          { result :=
              (checkLoop cfg url oracle (attempt + 1) fuel (some msg)).result,
            attempts :=
              (checkLoop cfg url oracle (attempt + 1) fuel (some msg)).attempts + 1,
            sleeps :=
              (checkLoop cfg url oracle (attempt + 1) fuel (some msg)).sleeps }) ∧
    (∀ (cfg : Config) (url msg : String) (oracle : Nat → AttemptOutcome),
        0 ≤ cfg.Retries → (∀ n, oracle n = .constructErr msg) →
        checkURL cfg url oracle =
          { result := some
              { URL := url, Status := "error", StatusCode := 0, Error := msg,
                Duration := 0, Timestamp := 0, Retries := cfg.Retries },
            attempts := cfg.Retries.toNat + 1, sleeps := [] }) := by
  refine ⟨?_, ?_, ?_, ?_⟩
  · exact fun cfg url oracle attempt fuel lastErr msg h hat =>
      checkLoop_doErr_last cfg url oracle attempt fuel lastErr msg h hat
  · exact fun cfg url oracle attempt fuel lastErr msg h hat =>
      checkLoop_doErr_retry cfg url oracle attempt fuel lastErr msg h hat
  · exact fun cfg url oracle attempt fuel lastErr msg h =>
      checkLoop_constructErr cfg url oracle attempt fuel lastErr msg h
  · intro cfg url msg oracle hr hor
    obtain ⟨k, hk⟩ : ∃ k, (cfg.Retries + 1).toNat = k + 1 :=
      ⟨cfg.Retries.toNat, by omega⟩
    simp only [checkURL, hk]
    rw [checkLoop_all_constructErr cfg url msg oracle hor (k + 1) 0 none
      (by omega)]
    have hkr : k + 1 = cfg.Retries.toNat + 1 := by omega
    rw [hkr]

/-- Witness for the amended C5 at concrete inputs. -/
theorem transport_failure_retry_policy_witness :
    checkLoop ⟨10000000000, 5, 0, "ua"⟩ "https://w" (fun _ => .doErr "refused")
        0 1 none
      = { result := some
            { URL := "https://w", Status := "error", StatusCode := 0,
              Error := "refused", Duration := 0, Timestamp := 0, Retries := 0 },
          attempts := 1, sleeps := [] } ∧
    checkLoop ⟨10000000000, 5, 1, "ua"⟩ "https://w" (fun _ => .doErr "refused")
        0 2 none
      = { result :=
            (checkLoop ⟨10000000000, 5, 1, "ua"⟩ "https://w"
              (fun _ => .doErr "refused") 1 1 (some "refused")).result,
          attempts :=
            (checkLoop ⟨10000000000, 5, 1, "ua"⟩ "https://w"
              (fun _ => .doErr "refused") 1 1 (some "refused")).attempts + 1,
          sleeps := 500 ::
            (checkLoop ⟨10000000000, 5, 1, "ua"⟩ "https://w"
              (fun _ => .doErr "refused") 1 1 (some "refused")).sleeps } ∧
    checkURL ⟨10000000000, 5, 1, "ua"⟩ "https://w" (fun _ => .constructErr "bad")
      = { result := some
            { URL := "https://w", Status := "error", StatusCode := 0,
              Error := "bad", Duration := 0, Timestamp := 0, Retries := 1 },
          attempts := 2, sleeps := [] } :=
  ⟨transport_failure_retry_policy.1 _ "https://w" (fun _ => .doErr "refused")
      0 0 none "refused" rfl (by decide),
   transport_failure_retry_policy.2.1 _ "https://w" (fun _ => .doErr "refused")
      0 1 none "refused" rfl (by decide),
   transport_failure_retry_policy.2.2.2 _ "https://w" "bad"
      (fun _ => .constructErr "bad") (by decide) (fun _ => rfl)⟩

/-- Witness for the amended C3 at concrete inputs. -/
theorem retries_field_final_attempt_index_witness :
    ((checkURL ⟨10000000000, 5, 2, "ua"⟩ "https://a"
        (fun _ => .doErr "refused")).attempts = 3 ∧
      (checkURL ⟨10000000000, 5, 2, "ua"⟩ "https://a"
        (fun _ => .doErr "refused")).result =
        some { URL := "https://a", Status := "error", StatusCode := 0,
               Error := "refused", Duration := 0, Timestamp := 0,
               Retries := 2 }) ∧
    ((checkURL ⟨10000000000, 5, 1, "ua"⟩ "https://b"
        (fun n => if n = 0 then .doErr "refused"
                  else .response 200)).attempts = 2 ∧
      (checkURL ⟨10000000000, 5, 1, "ua"⟩ "https://b"
        (fun n => if n = 0 then .doErr "refused"
                  else .response 200)).result =
        some { URL := "https://b", Status := "success", StatusCode := 200,
               Error := "", Duration := 0, Timestamp := 0, Retries := 1 }) :=
  ⟨retries_field_final_attempt_index.1 _ "https://a" "refused"
      (fun _ => .doErr "refused") (by decide) (fun _ => rfl),
   retries_field_final_attempt_index.2 _ "https://b" "refused" 200
      (by decide) (by decide)⟩

/-- C8: in every reachable state of a `CheckAll` run the pool holds exactly
`maxConcurrency` workers and at most `maxConcurrency` checks execute
simultaneously; the bound is enforced through the semaphore counter, whose
guarded acquire is the admission gate. -/
theorem scheduler_bounded_concurrency (cfg : Config)
    (oracle : String → Nat → AttemptOutcome) (urls : List String)
    (s : SchedState)
    (h : Relation.ReflTransGen (Step cfg oracle) (initState cfg urls) s) :
    inCheckCount s ≤ cfg.Concurrency.toNat ∧
    s.workers.length = cfg.Concurrency.toNat := by
  obtain ⟨hcount, hle, hlen⟩ := SemInv_reachable cfg oracle urls s h
  have hmono : s.workers.countP WStage.isInCheck ≤
      s.workers.countP WStage.holdsSlot := by
    apply List.countP_mono_left
    intro a _ ha
    cases a <;> simp_all [WStage.isInCheck, WStage.holdsSlot]
  have hcap : s.workers.countP WStage.holdsSlot ≤ cfg.Concurrency.toNat := by
    omega
  exact ⟨le_trans hmono hcap, hlen⟩

/-- Witness for C8: the bound instantiated at the initial state of a
concrete run. -/
theorem scheduler_bounded_concurrency_witness :
    inCheckCount (initState ⟨10000000000, 2, 1, "ua"⟩
        ["example.com", "go.dev"]) ≤
      ((⟨10000000000, 2, 1, "ua"⟩ : Config)).Concurrency.toNat ∧
    (initState ⟨10000000000, 2, 1, "ua"⟩
        ["example.com", "go.dev"]).workers.length =
      ((⟨10000000000, 2, 1, "ua"⟩ : Config)).Concurrency.toNat :=
  scheduler_bounded_concurrency _ (fun _ _ => .response 200) _ _
    Relation.ReflTransGen.refl

end HealthCheckerModel

